import Mathlib

/-!
Verification development for the Queitite interpreter (qewer33/queitite).

The repository is a Rust tree-walking interpreter.  We shallowly embed the
parts of the source that the claims exercise:

* `src/evaluator/value.rs`   — the `Value` sum, `is_equal`, `is_truthy`
* `src/evaluator/object.rs`  — `Object`, `Instance`, property lookup, the
  constructor-call protocol
* `src/evaluator/runtime_err.rs` — `ErrKind`, `RuntimeErr`, `RuntimeEvent`
* `src/evaluator/natives.rs` — the `read` and `err` builtins
* `src/evaluator/natives/math.rs`, `rand.rs` — the Math / Rand objects
* `src/evaluator/natives/tui.rs` — the Tui frame-state model
* `src/lexer.rs`             — the lexer

`Rc<RefCell<Instance>>` cells are modelled by an explicit store (a list of
instances addressed by position); allocation appends.  `f64` under
`ordered_float::OrderedFloat` is modelled by `F64` below, exact for the
equality semantics the claims touch.  Host I/O (stdin/stdout, the terminal)
is modelled by passing the outcome of each host operation as an argument.

The repository ships two incompatible revisions of some modules (its spec
notes this): `value.rs`/`object.rs` call a two-argument `RuntimeEvent::error`
while `runtime_err.rs` defines a three-argument one, and `natives/*.rs` use a
`Method`/`NativeMethod` table on `Object` whose defining revision of
`object.rs` is absent.  Definitions below follow the files that are present;
the few absent pieces (`function.rs`, `cursor.rs`, the `Method` shape) are
modelled from the spec and say so in their doc comments.
-/

/-- Alias for the builtin boolean type, needed inside namespaces that also
declare a constructor named `Bool`. -/
abbrev CoreBool := Bool

namespace Queitite

/-- Model of `f64` as wrapped by `ordered_float::OrderedFloat` in
`Value::Num`.  Every finite double is a rational number; the non-finite
values are kept as separate constructors (the two zero signs are identified,
which is exact for every equality the source performs on these values). -/
inductive F64 where
  | finite (q : ℚ)
  | nan
  | posInf
  | negInf
deriving DecidableEq

/-- Equality of `OrderedFloat<f64>` (its `PartialEq`): ordinary float
equality except that NaN equals NaN. -/
def F64.beq : F64 → F64 → Bool
  | .finite a, .finite b => a == b
  | .nan, .nan => true
  | .posInf, .posInf => true
  | .negInf, .negInf => true
  | _, _ => false

/-- Raw `f64` equality against the literal `0.`, as in `*n == 0.` in
`Value::is_truthy` (`OrderedFloat` compares against a bare float with the
primitive float equality, under which NaN is not equal to 0). -/
def F64.rawEqZero : F64 → Bool
  | .finite a => a == 0
  | _ => false

/-- Modelled from the spec: `lexer/cursor.rs` is absent from the tree.  The
spec glossary says a Cursor is a source position (line, column) attached to
tokens, AST nodes and runtime errors for diagnostics. -/
structure Cursor where
  line : Nat
  col : Nat
deriving DecidableEq

/-- `ErrKind` from `runtime_err.rs`.  Constructor names carry a `K` suffix
because the source spellings collide with Lean builtins. -/
inductive ErrKind where
  | typeK
  | nameK
  | arityK
  | valueK
  | nativeK
  | ioK
deriving DecidableEq

/-- `impl ToString for ErrKind` from `runtime_err.rs`. -/
def ErrKind.to_string : ErrKind → String
  | .typeK => "TypeErr"
  | .nameK => "NameErr"
  | .arityK => "ArityErr"
  | .valueK => "ValueErr"
  | .nativeK => "NativeErr"
  | .ioK => "IOErr"

/-- `impl FromStr for ErrKind` from `runtime_err.rs`; the failure case
(`Err(())` in Rust) is `none`. -/
def ErrKind.from_str : String → Option ErrKind
  | "TypeErr" => some .typeK
  | "NameErr" => some .nameK
  | "ArityErr" => some .arityK
  | "ValueErr" => some .valueK
  | "NativeErr" => some .nativeK
  | "IOErr" => some .ioK
  | _ => none

/-- `NativeMethod` as constructed by the `native_fn!` macro call sites:
an inner callable (we keep its name and arity) plus the boolean flag passed
to `NativeMethod::new` marking whether a shared data cell is attached.
Modelled from the spec: `natives/macros.rs` and the matching `object.rs`
revision are absent from the tree. -/
structure NativeMethod where
  fname : String
  farity : Nat
  stateful : Bool
deriving DecidableEq

mutual

/-- `Value` from `value.rs`.  `Rc<RefCell<Instance>>` is modelled as an
address into a `Store`; `Rc<dyn Callable>` as `CallableRef`. -/
inductive Value where
  | Null
  | Bool (b : Bool)
  | Num (n : F64)
  | Str (s : String)
  | Callable (c : CallableRef)
  | Obj (o : Object)
  | ObjInstance (addr : Nat)

/-- The callables a `Value::Callable` can reference: a user function (or
bound method) or a native function. -/
inductive CallableRef where
  | func (f : Function)
  | native (name : String) (arity : Nat)

/-- Modelled from the spec: `evaluator/function.rs` is absent from the tree.
Per the spec a user function has parameters, a body AST, a defining
environment and an optional bound receiver; `object.rs` only consults its
name, its arity (the parameter count) and `bind_method`, so the body and
environment are not represented. -/
inductive Function where
  | mk (name : String) (params : List String) (bound : Option Value)

/-- `Object` from `object.rs`: a name plus a method table.  The `object.rs`
revision in the tree maps names directly to user `Function`s while the
native modules build tables of `Method::Native` entries against an absent
revision; the table therefore holds the union type `Method`. -/
inductive Object where
  | mk (name : String) (methods : List (String × Method))

/-- `Method` as used by the native modules: a user function or a native
method.  Modelled from the spec (its defining `object.rs` revision is
absent): the spec says a Method is either a user function or a native
method with optional bound data cell. -/
inductive Method where
  | user (f : Function)
  | native (m : NativeMethod)

end

def Object.name : Object → String
  | .mk n _ => n

def Object.methods : Object → List (String × Method)
  | .mk _ ms => ms

def Function.fname : Function → String
  | .mk n _ _ => n

def Function.params : Function → List String
  | .mk _ ps _ => ps

def Function.bound : Function → Option Value
  | .mk _ _ b => b

/-- Modelled from the spec: a user function's arity is its parameter
count (`function.rs` is absent from the tree). -/
def Function.arity (f : Function) : Nat :=
  f.params.length

/-- Modelled from the spec: `Function::bind_method(inst)` (called in
`object.rs`) produces the same function with `inst` as its bound receiver
(`function.rs` is absent from the tree). -/
def Function.bind_method : Function → Value → Function
  | .mk n ps _, inst => .mk n ps (some inst)

def Method.arity : Method → Nat
  | .user f => f.arity
  | .native m => m.farity

/-- Binding a method to a receiver; user functions get the receiver as in
`Function::bind_method`, native methods carry no receiver slot. -/
def Method.bind_method : Method → Value → Method
  | .user f, inst => .user (f.bind_method inst)
  | .native m, _ => .native m

/-- View a table method as the callable stored into a `Value::Callable`. -/
def CallableRef.ofMethod : Method → CallableRef
  | .user f => .func f
  | .native m => .native m.fname m.farity

/-- `Value::is_equal` from `value.rs`: structural for Null/Bool/Num/Str,
name-based for Obj, constantly false for Callable and ObjInstance. -/
def Value.is_equal : Value → Value → CoreBool
  | .Null, other =>
      match other with
      | .Null => true
      | _ => false
  | .Bool b, other =>
      match other with
      | .Bool ob => b == ob
      | _ => false
  | .Num n, other =>
      match other with
      | .Num m => F64.beq n m
      | _ => false
  | .Str s, other =>
      match other with
      | .Str os => s == os
      | _ => false
  | .Obj o, other =>
      match other with
      | .Obj oo => o.name == oo.name
      | _ => false
  | .Callable _, _ => false
  | .ObjInstance _, _ => false

/-- `Value::is_truthy` from `value.rs`.  The `Num` arm is the source's
`*n == 0.` — literally comparing the number against zero, so `Num(0)` is
truthy and every other number is falsey (the source's own comment says the
opposite). -/
def Value.is_truthy : Value → CoreBool
  | .Bool b => b
  | .Null => false
  | .Num n => F64.rawEqZero n
  | _ => true

/-- Discriminator: is the value a `Value::Callable`? -/
def Value.isCallableV : Value → CoreBool
  | .Callable _ => true
  | _ => false

/-- Discriminator: is the value a `Value::ObjInstance`? -/
def Value.isObjInstanceV : Value → CoreBool
  | .ObjInstance _ => true
  | _ => false

/-- `RuntimeErr` from `runtime_err.rs`. -/
structure RuntimeErr where
  kind : ErrKind
  msg : String
  cursor : Cursor
  note : Option String

/-- `RuntimeErr::new` from `runtime_err.rs`: note defaults to `None`. -/
def RuntimeErr.new (kind : ErrKind) (msg : String) (cursor : Cursor) : RuntimeErr :=
  ⟨kind, msg, cursor, none⟩

/-- `RuntimeEvent` from `runtime_err.rs`: the fallible event channel. -/
inductive RuntimeEvent where
  | Err (e : RuntimeErr)
  | Return (v : Value)
  | UserErr (val : Value) (cursor : Cursor)
  | Break
  | Continue

/-- `RuntimeEvent::error` from `runtime_err.rs`. -/
def RuntimeEvent.error (kind : ErrKind) (msg : String) (cursor : Cursor) : RuntimeEvent :=
  .Err (RuntimeErr.new kind msg cursor)

/-- Association-list lookup standing in for `HashMap::get` (keys are unique
in every map the source builds, so the first hit is the hit). -/
def lookupAssoc {α : Type} (l : List (String × α)) (k : String) : Option α :=
  (l.find? (fun p => p.1 == k)).map (fun p => p.2)

/-- Association-list update standing in for `HashMap::insert`: replace the
binding when the key is present, append it otherwise. -/
def setAssoc {α : Type} (l : List (String × α)) (k : String) (v : α) : List (String × α) :=
  if l.any (fun p => p.1 == k) then
    l.map (fun p => if p.1 == k then (k, v) else p)
  else
    l ++ [(k, v)]

/-- `Instance` from `object.rs`: its `Object` plus a mutable field map. -/
structure Instance where
  obj : Object
  fields : List (String × Value)

/-- `Instance::new` from `object.rs`: empty field map. -/
def Instance.new (obj : Object) : Instance :=
  ⟨obj, []⟩

/-- `impl ToString for Instance` from `object.rs`. -/
def Instance.to_string (inst : Instance) : String :=
  inst.obj.name ++ " instance"

/-- `Instance::set` from `object.rs`: unconditional field insert/update. -/
def Instance.set (inst : Instance) (name : String) (val : Value) : Instance :=
  ⟨inst.obj, setAssoc inst.fields name val⟩

/-- The heap of `Rc<RefCell<Instance>>` cells: a cell is an index into this
list, `Rc::new(RefCell::new(i))` appends `i` and returns the new index. -/
structure Store where
  insts : List Instance

/-- Dereference a cell (`rc.borrow()`); a live `Rc` always has an entry. -/
def Store.lookup (st : Store) (addr : Nat) : Option Instance :=
  st.insts[addr]?

/-- `Rc::new(RefCell::new(inst))`: allocate a fresh cell. -/
def Store.alloc (st : Store) (inst : Instance) : Nat × Store :=
  (st.insts.length, ⟨st.insts ++ [inst]⟩)

/-- A field write through a cell (`cell.borrow_mut().set(name, v)`). -/
def Store.setField (st : Store) (addr : Nat) (name : String) (v : Value) : Store :=
  match st.insts[addr]? with
  | some inst => ⟨st.insts.set addr (inst.set name v)⟩
  | none => st

/-- `Object::find_method` from `object.rs` (`methods.get(&name).cloned()`). -/
def Object.find_method (o : Object) (name : String) : Option Method :=
  lookupAssoc o.methods name

/-- The ASCII apostrophe character as a one-character string. -/
def squote : String :=
  String.mk [Char.ofNat 39]

/-- The message built by `Instance::get` on a miss:
`format!("undefined property -{}-", name)` with ASCII apostrophes in place
of the dashes. -/
def undefinedPropertyMsg (name : String) : String :=
  "undefined property " ++ squote ++ name ++ squote

/-- `Instance::get` from `object.rs`: fields first, then methods (a hit
clones the instance into a fresh cell — `Rc::new(RefCell::new(self.clone()))`
— and binds the method to that cell), otherwise an "undefined property"
error.  The two-argument `RuntimeEvent::error(msg, cursor)` the source calls
lives in an absent `runtime_err.rs` revision; its kind is modelled from the
spec, which files unknown-property failures under kind Name. -/
def Instance.get (inst : Instance) (name : String) (cursor : Cursor) (st : Store) :
    Except RuntimeEvent Value × Store :=
  match lookupAssoc inst.fields name with
  | some val => (.ok val, st)
  | none =>
    match inst.obj.find_method name with
    | some func =>
      let allocd := st.alloc inst
      (.ok (.Callable (CallableRef.ofMethod (func.bind_method (.ObjInstance allocd.1)))),
       allocd.2)
    | none =>
      (.error (RuntimeEvent.error .nameK (undefinedPropertyMsg name) cursor), st)

/-- Property access on a `Value::ObjInstance` cell: the evaluator borrows
the instance held in the cell and calls `Instance::get` on it.  A dangling
address cannot arise with `Rc`; the `none` arm is the same error for
totality. -/
def Store.getProperty (st : Store) (addr : Nat) (name : String) (cursor : Cursor) :
    Except RuntimeEvent Value × Store :=
  match st.lookup addr with
  | some inst => inst.get name cursor st
  | none => (.error (RuntimeEvent.error .nameK (undefinedPropertyMsg name) cursor), st)

/-- `impl Callable for Object`, `arity` arm from `object.rs`: the arity of
`init` when the method table has one, else 0. -/
def Object.arity (o : Object) : Nat :=
  match o.find_method "init" with
  | some init => init.arity
  | none => 0

/-- `impl Callable for Object`, `call` arm from `object.rs`: allocate a
fresh `Instance`, bind and invoke `init` on it when present (the `?` on the
invocation propagates an event and otherwise discards the value), and
return the instance.  The body of `Function::call` lives in the absent
`function.rs`, so the invocation behavior is the parameter `callFn`
(modelled from the spec: a call evaluates the body against the bound
receiver and produces a value or a runtime event, possibly mutating
instance cells). -/
def Object.call
    (callFn : Method → List Value → Store → Except RuntimeEvent Value × Store)
    (o : Object) (args : List Value) (st : Store) :
    Except RuntimeEvent Value × Store :=
  let allocd := st.alloc (Instance.new o)
  let inst := Value.ObjInstance allocd.1
  match o.find_method "init" with
  | some init =>
    match callFn (init.bind_method inst) args allocd.2 with
    | (.ok _, st2) => (.ok inst, st2)
    | (.error e, st2) => (.error e, st2)
  | none => (.ok inst, allocd.2)

/-- `impl Display for Value` from `value.rs`.  The host formatting of `f64`
(`{}` on the inner float) and the Debug formatting of callables (`{:?}`)
are delegated to the host, so they are parameters here, exactly as the
source delegates them. -/
def Value.display (st : Store) (fmtNum : F64 → String) (fmtCallable : CallableRef → String) :
    Value → String
  | .Null => "null"
  | .Bool b => if b then "true" else "false"
  | .Num n => fmtNum n
  | .Str s => s
  | .Callable c => fmtCallable c
  | .Obj o => o.name
  | .ObjInstance addr =>
    match st.lookup addr with
    | some inst => inst.to_string
    | none => ""

/-- The `err` builtin (`FnErr` in `natives.rs`) on string arguments: parse
the kind with `ErrKind::from_str`; a parse failure is Err{Value}
"invalid error kind", success raises `RuntimeErr::new(kind, msg, cursor)`.
The `check_str` guards on the two arguments (from the absent `value.rs`
revision with shared-string values) are what restricts this to string
arguments. -/
def FnErr.call (kindStr msg : String) (cursor : Cursor) : Except RuntimeEvent Value :=
  match ErrKind.from_str kindStr with
  | some kind => .error (.Err (RuntimeErr.new kind msg cursor))
  | none => .error (RuntimeEvent.error .valueK "invalid error kind" cursor)

/-- Whitespace as trimmed by `str::trim`, i.e. Rust `char::is_whitespace`:
the Unicode White_Space property.  Its code points are U+0009..U+000D (tab,
line feed, vertical tab, form feed, carriage return), U+0020 (space),
U+0085 (next line), U+00A0 (no-break space), U+1680 (ogham space mark),
U+2000..U+200A (the en/em/thin/... spaces), U+2028 (line separator),
U+2029 (paragraph separator), U+202F (narrow no-break space), U+205F
(medium mathematical space) and U+3000 (ideographic space). -/
def isWsChar (c : Char) : Bool :=
  (9 ≤ c.toNat && c.toNat ≤ 13) ||
  c.toNat == 32 ||
  c.toNat == 133 ||
  c.toNat == 160 ||
  c.toNat == 0x1680 ||
  (0x2000 ≤ c.toNat && c.toNat ≤ 0x200A) ||
  c.toNat == 0x2028 ||
  c.toNat == 0x2029 ||
  c.toNat == 0x202F ||
  c.toNat == 0x205F ||
  c.toNat == 0x3000

/-- Rust `str::trim`: drop leading and trailing `char::is_whitespace`
characters. -/
def rustTrim (s : String) : String :=
  String.mk (((s.toList.dropWhile isWsChar).reverse.dropWhile isWsChar).reverse)

/-- The `read` builtin (`FnRead` in `natives.rs`).  The outcomes of the two
host operations are passed in: `flushErr` is the error of
`io::stdout().flush()` when it fails, `readRes` the result of
`read_line` (the line read still carries its trailing newline, as
`read_line` keeps it).  The success path returns `string.trim()` as a Str. -/
def FnRead.call (flushErr : Option String) (readRes : Except String String) (cursor : Cursor) :
    Except RuntimeEvent Value :=
  match flushErr with
  | some e => .error (RuntimeEvent.error .ioK ("failed to flush stdout: " ++ e) cursor)
  | none =>
    match readRes with
    | .error e => .error (RuntimeEvent.error .ioK ("failed to read line: " ++ e) cursor)
    | .ok line => .ok (.Str (rustTrim line))

/-- Follows the claim wording, not the source (for comparison only): return
the line trimmed of the trailing newline and nothing else. -/
def trimTrailingNewlineSpec (s : String) : String :=
  match s.toList.getLast? with
  | some c => if c = Char.ofNat 10 then String.mk s.toList.dropLast else s
  | none => s

/-- `native_math` from `natives/math.rs`: note the `Object::new` call is
passed the name "Rand", not "Math". -/
def mathObj : Object :=
  .mk "Rand" [("sin", .native ⟨"sin", 1, false⟩), ("cos", .native ⟨"cos", 1, false⟩)]

/-- The `Value` bound to the global name `Math` by `natives.rs`. -/
def native_math : Value :=
  .Obj mathObj

/-- `native_rand` from `natives/rand.rs`. -/
def randObj : Object :=
  .mk "Rand" [("num", .native ⟨"rand_num", 0, false⟩)]

/-- The `Value` bound to the global name `Rand` by `natives.rs`. -/
def native_rand : Value :=
  .Obj randObj

/-! ### The Tui frame-state model (`natives/tui.rs`)

The module keeps thread-local state: a widget buffer `WIDGETS`, a layout
command list `LAYOUT_CMDS`, the counter `NEXT_RECT_ID` (initialized to 1 —
"0 is root"), and the resolved table `RECTS`.  Widgets are opaque payloads
here (`draw_*` only ever appends them), so the state is parametrized by the
widget type.  `ratatui::layout::Layout::split` is host-library code; it
enters as the `splitFn` parameter of `computeRects`. -/

/-- `ratatui::layout::Rect` (u16 coordinates, modelled as Nat). -/
structure TuiRect where
  x : Nat
  y : Nat
  width : Nat
  height : Nat
deriving DecidableEq

/-- `ratatui::layout::Direction`. -/
inductive TuiDirection where
  | horizontal
  | vertical
deriving DecidableEq

/-- `LayoutCmd` from `natives/tui.rs`; constraints are the
`Constraint::Percentage` values built by `constraints_from_value`. -/
structure LayoutCmd where
  parent : Nat
  constraints : List Nat
  direction : TuiDirection
  start : Nat
deriving DecidableEq

/-- The thread-local Tui state (`WIDGETS`, `LAYOUT_CMDS`, `NEXT_RECT_ID`,
`RECTS`). -/
structure TuiState (W : Type) where
  widgets : List W
  layoutCmds : List LayoutCmd
  nextId : Nat
  rects : List TuiRect

/-- The initial thread-local state: empty buffers, `NEXT_RECT_ID = 1`. -/
def tuiInitState {W : Type} : TuiState W :=
  ⟨[], [], 1, []⟩

/-- `FnTuiClear` from `natives/tui.rs`: clear `WIDGETS`, then
`reset_layout_state` clears `LAYOUT_CMDS`, resets `NEXT_RECT_ID` to 1 and
clears `RECTS`. -/
def tuiClear {W : Type} (_st : TuiState W) : TuiState W :=
  ⟨[], [], 1, []⟩

/-- Any `draw_*` native: append one widget to `WIDGETS`. -/
def tuiDrawWidget {W : Type} (st : TuiState W) (w : W) : TuiState W :=
  ⟨st.widgets ++ [w], st.layoutCmds, st.nextId, st.rects⟩

/-- Common body of `FnTuiSplitRow` / `FnTuiSplitCol`: take the current
`NEXT_RECT_ID` as `start`, advance the counter by the constraint count,
push a `LayoutCmd`, and return the ids `start..start+count`. -/
def tuiSplit {W : Type} (direction : TuiDirection) (st : TuiState W)
    (parent : Nat) (constraints : List Nat) : List Nat × TuiState W :=
  let count := constraints.length
  let start := st.nextId
  (List.range' start count,
   ⟨st.widgets, st.layoutCmds ++ [⟨parent, constraints, direction, start⟩],
    start + count, st.rects⟩)

/-- `FnTuiSplitRow` (direction Horizontal). -/
def tuiSplitRow {W : Type} (st : TuiState W) (parent : Nat) (constraints : List Nat) :
    List Nat × TuiState W :=
  tuiSplit .horizontal st parent constraints

/-- `FnTuiSplitCol` (direction Vertical). -/
def tuiSplitCol {W : Type} (st : TuiState W) (parent : Nat) (constraints : List Nat) :
    List Nat × TuiState W :=
  tuiSplit .vertical st parent constraints

/-- The write-back loop of `compute_rects`:
`for (i, rect) in splits: if start + i < rects.len: rects[start+i] = rect`. -/
def applySplits : List TuiRect → Nat → List TuiRect → List TuiRect
  | rects, _, [] => rects
  | rects, pos, r :: rs =>
    applySplits (if pos < rects.length then rects.set pos r else rects) (pos + 1) rs

/-- `compute_rects` from `natives/tui.rs`: a table of `NEXT_RECT_ID` rects,
entry 0 set to the root frame area, then each accumulated `LayoutCmd` in
order splits its parent entry (via the host `Layout::split`, the `splitFn`
parameter) and writes the pieces at `start..`.  Rust indexes
`rects[cmd.parent]` directly (panicking out of range); the `getD` keeps the
function total and agrees wherever Rust does not panic. -/
def computeRects (splitFn : TuiDirection → List Nat → TuiRect → List TuiRect)
    (cmds : List LayoutCmd) (nextId : Nat) (root : TuiRect) : List TuiRect :=
  let initTable := (List.replicate nextId (⟨0, 0, 0, 0⟩ : TuiRect)).set 0 root
  cmds.foldl
    (fun rects cmd =>
      applySplits rects cmd.start
        (splitFn cmd.direction cmd.constraints (rects.getD cmd.parent ⟨0, 0, 0, 0⟩)))
    initTable

/-- `FnTuiRender` from `natives/tui.rs`: inside `terminal.draw` it runs
`compute_rects(frame.area())` and then renders each accumulated widget in
insertion order (the draw closure then flushes).  Its observable layout
behavior is the resolved rect table plus the widget sequence in order. -/
def tuiRender {W : Type} (splitFn : TuiDirection → List Nat → TuiRect → List TuiRect)
    (st : TuiState W) (root : TuiRect) : List TuiRect × List W :=
  (computeRects splitFn st.layoutCmds st.nextId root, st.widgets)

/-- The invariant the Tui API maintains: the id counter stays at least 1
and every recorded layout command starts writing at id 1 or later (id 0 is
reserved for the root frame area). -/
def tuiStateWf {W : Type} (st : TuiState W) : Bool :=
  decide (1 ≤ st.nextId) && st.layoutCmds.all (fun c => decide (1 ≤ c.start))

/-! ### The lexer (`lexer.rs`)

`Lexer` holds `src: Vec<char>` and an index `curr`.  Rust indexing
`self.src[i]` panics when `i` is out of bounds; the embedding returns
`LexPanic.indexOutOfBounds` there.  The three scanning loops are given
explicit fuel so that every function is structurally recursive and
computes; `tokenize` passes `src.length + 1` fuel, which is never exhausted
before the loop exits or panics because every iteration advances `curr`. -/

/-- Token from `token.rs` (this revision has no Comment token). -/
inductive Token where
  | Num (s : String)
  | Bool (b : CoreBool)
  | Str (s : String)
  | Assign
  | AddAssign
  | SubAssign
  | Incr
  | Decr
  | Add
  | Sub
  | Mult
  | Div
  | Pow
  | Not
  | Equals
  | NotEquals
  | Greater
  | GreaterEquals
  | Lesser
  | LesserEquals
  | Keyword (s : String)
  | Identifier (s : String)
  | LParen
  | RParen
  | LBracket
  | RBracket
  | Comma
  | EOL
  | EOF
deriving DecidableEq

/-- `KEYWORDS` from `token.rs`. -/
def KEYWORDS : List String :=
  ["do", "end", "if", "for", "while", "return", "yeet", "throw", "amogus"]

/-- Outcomes of the embedded lexer that Rust does not return normally:
an out-of-bounds `Vec` index (a Rust panic), or fuel exhaustion (an
artifact of the fuel embedding; unreachable with the fuel `tokenize`
supplies). -/
inductive LexPanic where
  | indexOutOfBounds
  | fuelExhausted
deriving DecidableEq

/-- `Lexer::current`: `self.src[self.curr]`, panicking out of bounds. -/
def lexCurrent (src : List Char) (curr : Nat) : Except LexPanic Char :=
  match src[curr]? with
  | some c => .ok c
  | none => .error .indexOutOfBounds

/-- `Lexer::next`: increment `curr`; if now at the end return a space,
otherwise `self.src[self.curr]` (panicking when `curr` passed the end). -/
def lexNext (src : List Char) (curr : Nat) : Except LexPanic (Char × Nat) :=
  let c2 := curr + 1
  if c2 = src.length then .ok (' ', c2)
  else
    match src[c2]? with
    | some ch => .ok (ch, c2)
    | none => .error .indexOutOfBounds

/-- `Lexer::peek`: a space at the very end, otherwise `self.src[self.curr+1]`
(panicking when `curr+1` is out of bounds but `curr` is not exactly at the
end). -/
def lexPeek (src : List Char) (curr : Nat) : Except LexPanic Char :=
  if curr = src.length then .ok ' '
  else
    match src[curr + 1]? with
    | some ch => .ok ch
    | none => .error .indexOutOfBounds

/-- `Lexer::consume`: false at the end; otherwise compare
`self.src[self.curr+1]` (panicking out of bounds) and advance on a match. -/
def lexConsume (src : List Char) (curr : Nat) (c : Char) : Except LexPanic (Bool × Nat) :=
  if curr = src.length then .ok (false, curr)
  else
    match src[curr + 1]? with
    | some ch => if ch = c then .ok (true, curr + 1) else .ok (false, curr)
    | none => .error .indexOutOfBounds

/-- `Lexer::consume_str`: bounds-checked slice comparison, advancing by the
length on a match (`s.len()` equals the char count for the ASCII literals
the lexer passes). -/
def lexConsumeStr (src : List Char) (curr : Nat) (s : String) : Bool × Nat :=
  let len := s.length
  if src.length < curr + len then (false, curr)
  else if (src.drop curr).take len = s.toList then (true, curr + len)
  else (false, curr)

/-- `Lexer::consume_until`: push the current char (panicking at or past the
end), stop when `peek` equals `c`, else advance. -/
def lexConsumeUntil (src : List Char) (c : Char) :
    Nat → Nat → String → Except LexPanic (String × Nat)
  | 0, _, _ => .error .fuelExhausted
  | fuel + 1, curr, out =>
    match lexCurrent src curr with
    | .error e => .error e
    | .ok ch =>
      let out2 := out.push ch
      match lexPeek src curr with
      | .error e => .error e
      | .ok p =>
        if p = c then .ok (out2, curr)
        else lexConsumeUntil src c fuel (curr + 1) out2

/-- The loop inside `Lexer::check_num`: accumulate while `peek` is a digit
(`char::is_numeric`, which on the inputs below coincides with
`Char.isDigit`). -/
def lexNumLoop (src : List Char) :
    Nat → Nat → String → Except LexPanic (String × Nat)
  | 0, _, _ => .error .fuelExhausted
  | fuel + 1, curr, num =>
    match lexCurrent src curr with
    | .error e => .error e
    | .ok ch =>
      let num2 := num.push ch
      match lexPeek src curr with
      | .error e => .error e
      | .ok p =>
        if p.isDigit then lexNumLoop src fuel (curr + 1) num2
        else .ok (num2, curr)

/-- `Lexer::check_num`: `None` unless the current char is a digit, else the
digit run. -/
def lexCheckNum (src : List Char) (fuel curr : Nat) :
    Except LexPanic (Option (String × Nat)) :=
  match lexCurrent src curr with
  | .error e => .error e
  | .ok ch =>
    if ch.isDigit then
      match lexNumLoop src fuel curr "" with
      | .error e => .error e
      | .ok r => .ok (some r)
    else .ok none

/-- `Lexer::check_bool`: `consume_str("true")` then `consume_str("false")`. -/
def lexCheckBool (src : List Char) (curr : Nat) : Option (Bool × Nat) :=
  let t := lexConsumeStr src curr "true"
  if t.1 then some (true, t.2)
  else
    let f := lexConsumeStr src curr "false"
    if f.1 then some (false, f.2) else none

/-- The keyword/identifier loop in `scan_char`: accumulate while `peek` is
alphanumeric (`char::is_alphanumeric`; `Char.isAlphanum` agrees on the
ASCII inputs below). -/
def lexIdentLoop (src : List Char) :
    Nat → Nat → String → Except LexPanic (String × Nat)
  | 0, _, _ => .error .fuelExhausted
  | fuel + 1, curr, acc =>
    match lexCurrent src curr with
    | .error e => .error e
    | .ok ch =>
      let acc2 := acc.push ch
      match lexPeek src curr with
      | .error e => .error e
      | .ok p =>
        if p.isAlphanum then lexIdentLoop src fuel (curr + 1) acc2
        else .ok (acc2, curr)

/-- `Lexer::scan_char`: one dispatch step, returning an optional token and
the new index. -/
def scanChar (src : List Char) (fuel curr : Nat) :
    Except LexPanic (Option Token × Nat) := do
  let c ← lexCurrent src curr
  if c = '"' then
    let n1 ← lexNext src curr
    let u ← lexConsumeUntil src '"' fuel n1.2 ""
    let n2 ← lexNext src u.2
    let n3 ← lexNext src n2.2
    return (some (.Str u.1), n3.2)
  else if c = '=' then
    let k ← lexConsume src curr '='
    if k.1 then
      let n ← lexNext src k.2
      return (some .Equals, n.2)
    else
      let n ← lexNext src k.2
      return (some .Assign, n.2)
  else if c = '+' then
    let k ← lexConsume src curr '='
    if k.1 then
      let n ← lexNext src k.2
      return (some .AddAssign, n.2)
    else
      let k2 ← lexConsume src k.2 '+'
      if k2.1 then
        let n ← lexNext src k2.2
        return (some .Incr, n.2)
      else
        let n ← lexNext src k2.2
        return (some .Add, n.2)
  else if c = '-' then
    let k ← lexConsume src curr '='
    if k.1 then
      let n ← lexNext src k.2
      return (some .SubAssign, n.2)
    else
      let k2 ← lexConsume src k.2 '-'
      if k2.1 then
        let n ← lexNext src k2.2
        return (some .Decr, n.2)
      else
        let n ← lexNext src k2.2
        return (some .Sub, n.2)
  else if c = '*' then
    let k ← lexConsume src curr '*'
    if k.1 then
      let n ← lexNext src k.2
      return (some .Pow, n.2)
    else
      let n ← lexNext src k.2
      return (some .Mult, n.2)
  else if c = '/' then
    let n ← lexNext src curr
    return (some .Div, n.2)
  else if c = '<' then
    let k ← lexConsume src curr '='
    if k.1 then
      let n ← lexNext src k.2
      return (some .LesserEquals, n.2)
    else
      let n ← lexNext src k.2
      return (some .Lesser, n.2)
  else if c = '>' then
    let k ← lexConsume src curr '='
    if k.1 then
      let n ← lexNext src k.2
      return (some .GreaterEquals, n.2)
    else
      let n ← lexNext src k.2
      return (some .Greater, n.2)
  else if c = '!' then
    let k ← lexConsume src curr '='
    if k.1 then
      let n ← lexNext src k.2
      return (some .NotEquals, n.2)
    else
      let n ← lexNext src k.2
      return (some .Not, n.2)
  else if c = '\n' then
    let n ← lexNext src curr
    return (some .EOL, n.2)
  else if c = '(' then
    let n ← lexNext src curr
    return (some .LParen, n.2)
  else if c = ')' then
    let n ← lexNext src curr
    return (some .RParen, n.2)
  else if c = '#' then
    let n1 ← lexNext src curr
    let u ← lexConsumeUntil src '\n' fuel n1.2 ""
    let n2 ← lexNext src u.2
    return (none, n2.2)
  else if c = ',' then
    let n ← lexNext src curr
    return (some .Comma, n.2)
  else if c = ' ' then
    let n ← lexNext src curr
    return (none, n.2)
  else
    match lexCheckBool src curr with
    | some b =>
      let n ← lexNext src b.2
      return (some (.Bool b.1), n.2)
    | none =>
      let r ← lexCheckNum src fuel curr
      match r with
      | some numR =>
        let n ← lexNext src numR.2
        return (some (.Num numR.1), n.2)
      | none =>
        let idR ← lexIdentLoop src fuel curr ""
        let n ← lexNext src idR.2
        if KEYWORDS.contains idR.1 then
          return (some (.Keyword idR.1), n.2)
        else
          return (some (.Identifier idR.1), n.2)

/-- The loop of `Lexer::tokenize`: scan until `is_at_end`, collecting the
emitted tokens, then append `Token::EOF`. -/
def tokenizeLoop (src : List Char) :
    Nat → Nat → List Token → Except LexPanic (List Token)
  | 0, _, _ => .error .fuelExhausted
  | fuel + 1, curr, tokens =>
    if curr = src.length then .ok (tokens ++ [Token.EOF])
    else
      match scanChar src (src.length + 1) curr with
      | .error e => .error e
      | .ok (tok, c2) =>
        tokenizeLoop src fuel c2 (tokens ++ tok.toList)

/-- `Lexer::tokenize` on a source string (`Lexer::new` collects the chars). -/
def Lexer.tokenize (source : String) : Except LexPanic (List Token) :=
  tokenizeLoop source.toList (source.toList.length + 1) 0 []

/-! ### Concrete fixtures used by the witnesses -/

/-- A user-defined object with an `init` and a `sum` method, as built for
the spec scenario `Point(x, y) = do init(x, y) = do ... end; sum() = ... end`. -/
def demoObj : Object :=
  .mk "Point"
    [("init", .user (.mk "init" ["x", "y"] none)),
     ("sum", .user (.mk "sum" [] none))]

/-- A `Point` instance carrying one field. -/
def demoInst : Instance :=
  ⟨demoObj, [("x", .Num (.finite 3))]⟩

/-- A one-cell store holding `demoInst` at address 0. -/
def demoStore : Store :=
  ⟨[demoInst]⟩

/-- A splitter standing in for `Layout::split` in witnesses: one rect per
constraint. -/
def demoSplitFn : TuiDirection → List Nat → TuiRect → List TuiRect :=
  fun _ cs r => cs.map (fun _ => r)

/-- A Tui state reached from the initial state by one `split_row`. -/
def demoTuiState : TuiState String :=
  (tuiSplitRow (tuiInitState (W := String)) 0 [30, 70]).2

/-- A concrete root frame area. -/
def demoRoot : TuiRect :=
  ⟨0, 0, 80, 24⟩

/-- A `Function::call` stand-in for witnesses: every call returns Null and
leaves the store unchanged (an `init` whose body does nothing). -/
def demoCallFn : Method → List Value → Store → Except RuntimeEvent Value × Store :=
  fun _ _ st => (.ok .Null, st)

/-! ## Helper lemmas -/

theorem F64.beq_refl (n : F64) : F64.beq n n = true := by
  cases n <;> simp [F64.beq]

/-- The write-back loop of `compute_rects` never touches entry 0 when it
starts writing at index 1 or later. -/
theorem applySplits_getElem_zero (splits : List TuiRect) :
    ∀ (rects : List TuiRect) (start : Nat), 1 ≤ start →
      (applySplits rects start splits)[0]? = rects[0]? := by
  induction splits with
  | nil => intro rects start _; rfl
  | cons r rs ih =>
    intro rects start h
    rw [applySplits]
    rw [ih _ _ (Nat.le_succ_of_le h)]
    by_cases hlt : start < rects.length
    · simp only [hlt, if_true]
      exact List.getElem?_set_ne (by omega)
    · simp only [hlt, if_false]

/-- Folding layout commands whose starts are all at least 1 preserves
entry 0 of the rect table. -/
theorem foldCmds_getElem_zero
    (splitFn : TuiDirection → List Nat → TuiRect → List TuiRect) (cmds : List LayoutCmd) :
    ∀ rects : List TuiRect, (∀ c ∈ cmds, 1 ≤ c.start) →
      (cmds.foldl
        (fun rects cmd =>
          applySplits rects cmd.start
            (splitFn cmd.direction cmd.constraints (rects.getD cmd.parent ⟨0, 0, 0, 0⟩)))
        rects)[0]? = rects[0]? := by
  induction cmds with
  | nil => intro rects _; rfl
  | cons c cs ih =>
    intro rects h
    rw [List.foldl_cons]
    rw [ih _ (fun d hd => h d (List.mem_cons_of_mem c hd))]
    exact applySplits_getElem_zero _ _ _ (h c (List.mem_cons_self c cs))

/-- The successful results of the tokenize loop always end in the EOF token
appended after the scan loop. -/
theorem tokenizeLoop_ok_ends_eof (src : List Char) :
    ∀ (fuel curr : Nat) (tokens ts : List Token),
      tokenizeLoop src fuel curr tokens = .ok ts →
      ∃ pre, ts = pre ++ [Token.EOF] := by
  intro fuel
  induction fuel with
  | zero =>
    intro curr tokens ts h
    exact absurd h (by simp [tokenizeLoop])
  | succ fuel ih =>
    intro curr tokens ts h
    rw [tokenizeLoop] at h
    by_cases hc : curr = src.length
    · rw [if_pos hc] at h
      refine ⟨tokens, ?_⟩
      injection h with h2
      exact h2.symm
    · rw [if_neg hc] at h
      cases hm : scanChar src (src.length + 1) curr with
      | error e => rw [hm] at h; cases h
      | ok p => rw [hm] at h; exact ih _ _ _ h

/-! ## Claim theorems -/

/-- C1: the claim (and the source comment above `is_truthy`) says `false`,
`Null` and `Num(0)` are falsey and every other value — every nonzero
number, NaN included — is truthy.  The code has the `Num` test inverted:
`Value::is_truthy(Num(n))` is the comparison `n == 0.`, so `Num(0)` is
truthy and `Num(1)`, `Num(NaN)` are falsey, while the `Bool`/`Null` arms
behave as stated. -/
theorem is_truthy_num_inverted :
    Value.is_truthy (.Num (.finite 1)) = false ∧
    Value.is_truthy (.Num (.finite 0)) = true ∧
    Value.is_truthy (.Num (.finite (-2))) = false ∧
    Value.is_truthy (.Num .nan) = false ∧
    Value.is_truthy (.Bool false) = false ∧
    Value.is_truthy (.Bool true) = true ∧
    Value.is_truthy .Null = false ∧
    Value.is_truthy (.Str "") = true := by
  decide

/-- C2: `is_equal` is reflexive exactly off the identity variants — for
every value that is not a `Callable` and not an `ObjInstance` (this
revision of `Value` has no List variant at all), `is_equal(a, a)` is true,
NaN included; for every `Callable` or `ObjInstance` it is false. -/
theorem is_equal_refl_characterization :
    (∀ a : Value,
      Value.is_equal a a = (!(Value.isCallableV a || Value.isObjInstanceV a))) ∧
    Value.is_equal (.Num .nan) (.Num .nan) = true := by
  constructor
  · intro a
    cases a with
    | Null => rfl
    | Bool b => simp [Value.is_equal, Value.isCallableV, Value.isObjInstanceV]
    | Num n =>
      simp [Value.is_equal, Value.isCallableV, Value.isObjInstanceV, F64.beq_refl]
    | Str s => simp [Value.is_equal, Value.isCallableV, Value.isObjInstanceV]
    | Callable c => rfl
    | Obj o => simp [Value.is_equal, Value.isCallableV, Value.isObjInstanceV]
    | ObjInstance addr => rfl
  · rfl

/-- C9: `native_math` constructs its Object with the name "Rand" — the same
name `native_rand` uses — so under the name-based Obj equality the Math and
Rand objects compare equal (both ways), and the Math object displays as
"Rand". -/
theorem math_object_is_named_rand :
    mathObj.name = "Rand" ∧
    randObj.name = "Rand" ∧
    Value.is_equal native_math native_rand = true ∧
    Value.is_equal native_rand native_math = true ∧
    (∀ (st : Store) (fmtNum : F64 → String) (fmtCallable : CallableRef → String),
      Value.display st fmtNum fmtCallable native_math = "Rand") :=
  ⟨rfl, rfl, rfl, rfl, fun _ _ _ => rfl⟩

/-- C6: the `err` builtin parses its kind argument by exact string match
against the six spellings; a recognized spelling raises a runtime error of
that kind carrying the message (note `None`), any other string raises
Err{Value} "invalid error kind", and every `ErrKind` round-trips through
`to_string` and `from_str`. -/
theorem err_builtin_kind_dispatch :
    (∀ k : ErrKind, ErrKind.from_str k.to_string = some k) ∧
    (∀ (k : ErrKind) (msg : String) (cursor : Cursor),
      FnErr.call k.to_string msg cursor = .error (.Err ⟨k, msg, cursor, none⟩)) ∧
    (ErrKind.from_str "TypeErr" = some .typeK ∧
     ErrKind.from_str "NameErr" = some .nameK ∧
     ErrKind.from_str "ArityErr" = some .arityK ∧
     ErrKind.from_str "ValueErr" = some .valueK ∧
     ErrKind.from_str "NativeErr" = some .nativeK ∧
     ErrKind.from_str "IOErr" = some .ioK) ∧
    (∀ (s msg : String) (cursor : Cursor), ErrKind.from_str s = none →
      FnErr.call s msg cursor =
        .error (RuntimeEvent.error .valueK "invalid error kind" cursor)) := by
  refine ⟨?_, ?_, ?_, ?_⟩
  · intro k; cases k <;> rfl
  · intro k msg cursor; cases k <;> rfl
  · exact ⟨rfl, rfl, rfl, rfl, rfl, rfl⟩
  · intro s msg cursor h
    simp only [FnErr.call, h]

/-- Witness for C6 at the unknown spelling "BadKind". -/
theorem err_builtin_kind_dispatch_witness :
    FnErr.call "BadKind" "boom" ⟨1, 2⟩ =
      .error (RuntimeEvent.error .valueK "invalid error kind" ⟨1, 2⟩) :=
  err_builtin_kind_dispatch.2.2.2 "BadKind" "boom" ⟨1, 2⟩ rfl

/-- C7 counterexample: `read` trims with `str::trim`, which removes all
leading and trailing whitespace, not only the trailing newline.  On the
stdin line " hi \n" the code returns "hi" while the claim says " hi "
would be returned. -/
theorem read_trim_counterexample :
    FnRead.call none (.ok " hi \n") ⟨1, 1⟩ = .ok (.Str (rustTrim " hi \n")) ∧
    rustTrim " hi \n" = "hi" ∧
    trimTrailingNewlineSpec " hi \n" = " hi " ∧
    rustTrim " hi \n" ≠ trimTrailingNewlineSpec " hi \n" ∧
    rustTrim (String.mk [Char.ofNat 12, 'h', 'i', Char.ofNat 10]) = "hi" :=
  ⟨rfl, by decide, by decide, by decide, by decide⟩

/-- C7 (amended): `read` flushes stdout, reads one line, and returns it as
a Str trimmed of ALL leading and trailing whitespace (so in particular the
trailing newline); the trimmed result is an infix of the line and starts
and ends with non-whitespace; a flush or read failure yields Err{IO}. -/
theorem read_returns_whitespace_trimmed_line :
    (∀ (line : String) (cursor : Cursor),
      FnRead.call none (.ok line) cursor = .ok (.Str (rustTrim line))) ∧
    (∀ line : String, (rustTrim line).toList <:+: line.toList) ∧
    (∀ (line : String) (c : Char),
      (rustTrim line).toList.head? = some c → isWsChar c = false) ∧
    (∀ (line : String) (c : Char),
      (rustTrim line).toList.getLast? = some c → isWsChar c = false) ∧
    (∀ (e : String) (readRes : Except String String) (cursor : Cursor),
      FnRead.call (some e) readRes cursor =
        .error (RuntimeEvent.error .ioK ("failed to flush stdout: " ++ e) cursor)) ∧
    (∀ (e : String) (cursor : Cursor),
      FnRead.call none (.error e) cursor =
        .error (RuntimeEvent.error .ioK ("failed to read line: " ++ e) cursor)) := by
  refine ⟨fun _ _ => rfl, ?_, ?_, ?_, fun _ _ _ => rfl, fun _ _ => rfl⟩
  · intro line
    show (((line.toList.dropWhile isWsChar).reverse.dropWhile isWsChar).reverse : List Char)
        <:+: line.toList
    refine List.infix_iff_prefix_suffix.mpr
      ⟨line.toList.dropWhile isWsChar, ?_, List.dropWhile_suffix isWsChar⟩
    have h := List.dropWhile_suffix (l := (line.toList.dropWhile isWsChar).reverse) isWsChar
    have h2 := List.reverse_prefix.mpr h
    rwa [List.reverse_reverse] at h2
  · intro line c hc
    show isWsChar c = false
    have hhead :
        ((line.toList.dropWhile isWsChar).reverse.dropWhile isWsChar).reverse.head? = some c := hc
    rw [List.head?_reverse] at hhead
    obtain ⟨t, ht⟩ := List.dropWhile_suffix
      (l := (line.toList.dropWhile isWsChar).reverse) isWsChar
    have hlast : (line.toList.dropWhile isWsChar).reverse.getLast? = some c := by
      rw [← ht, List.getLast?_append, hhead]
      rfl
    rw [List.getLast?_reverse] at hlast
    have := List.head?_dropWhile_not isWsChar line.toList
    rw [hlast] at this
    exact this
  · intro line c hc
    show isWsChar c = false
    have hlast :
        ((line.toList.dropWhile isWsChar).reverse.dropWhile isWsChar).reverse.getLast? =
          some c := hc
    rw [List.getLast?_reverse] at hlast
    have := List.head?_dropWhile_not isWsChar (line.toList.dropWhile isWsChar).reverse
    rw [hlast] at this
    exact this

/-- Witness for C7 on the line " x \n". -/
theorem read_returns_whitespace_trimmed_line_witness :
    FnRead.call none (.ok " x \n") ⟨2, 3⟩ = .ok (.Str (rustTrim " x \n")) ∧
    isWsChar 'x' = false ∧
    FnRead.call (some "broken pipe") (.ok "") ⟨2, 3⟩ =
      .error (RuntimeEvent.error .ioK ("failed to flush stdout: " ++ "broken pipe") ⟨2, 3⟩) :=
  ⟨read_returns_whitespace_trimmed_line.1 " x \n" ⟨2, 3⟩,
   read_returns_whitespace_trimmed_line.2.2.1 " x \n" 'x' (by decide),
   read_returns_whitespace_trimmed_line.2.2.2.2.1 "broken pipe" (.ok "") ⟨2, 3⟩⟩

/-- C3: `Instance.get` returns the stored field value when the name is a
field (fields shadow methods), otherwise a bound-method callable capturing
the instance when the name is a method of its Object, and otherwise a Name
error whose message contains "undefined property" and the name. -/
theorem instance_get_resolution
    (inst : Instance) (name : String) (cursor : Cursor) (st : Store) :
    (∀ v, lookupAssoc inst.fields name = some v →
      inst.get name cursor st = (.ok v, st)) ∧
    (∀ m, lookupAssoc inst.fields name = none →
      inst.obj.find_method name = some m →
      inst.get name cursor st =
        (.ok (.Callable (CallableRef.ofMethod
            (m.bind_method (.ObjInstance st.insts.length)))),
         ⟨st.insts ++ [inst]⟩)) ∧
    (lookupAssoc inst.fields name = none →
      inst.obj.find_method name = none →
      inst.get name cursor st =
        (.error (RuntimeEvent.error .nameK (undefinedPropertyMsg name) cursor), st)) ∧
    ("undefined property".toList <:+: (undefinedPropertyMsg name).toList) ∧
    (name.toList <:+: (undefinedPropertyMsg name).toList) := by
  refine ⟨?_, ?_, ?_, ?_, ?_⟩
  · intro v hv
    simp only [Instance.get, hv]
  · intro m hf hm
    simp only [Instance.get, hf, hm, Store.alloc]
  · intro hf hm
    simp only [Instance.get, hf, hm]
  · refine ⟨[], [' '] ++ squote.toList ++ name.toList ++ squote.toList, ?_⟩
    show [] ++ "undefined property".toList ++ _ = (undefinedPropertyMsg name).toList
    simp only [undefinedPropertyMsg, String.toList, String.data_append, List.nil_append,
      List.append_assoc]
    rfl
  · refine ⟨"undefined property ".toList ++ squote.toList, squote.toList, ?_⟩
    show _ ++ name.toList ++ _ = (undefinedPropertyMsg name).toList
    simp only [undefinedPropertyMsg, String.toList, String.data_append, List.append_assoc]

/-- Witness for C3 on the `Point` fixture: a field hit, a method hit, and
an unknown property. -/
theorem instance_get_resolution_witness :
    demoInst.get "x" ⟨1, 1⟩ demoStore = (.ok (.Num (.finite 3)), demoStore) ∧
    demoInst.get "sum" ⟨1, 1⟩ demoStore =
      (.ok (.Callable (CallableRef.ofMethod ((Method.user (.mk "sum" [] none)).bind_method
          (.ObjInstance demoStore.insts.length)))),
       ⟨demoStore.insts ++ [demoInst]⟩) ∧
    demoInst.get "nope" ⟨1, 1⟩ demoStore =
      (.error (RuntimeEvent.error .nameK (undefinedPropertyMsg "nope") ⟨1, 1⟩), demoStore) :=
  ⟨(instance_get_resolution demoInst "x" ⟨1, 1⟩ demoStore).1 (.Num (.finite 3)) rfl,
   (instance_get_resolution demoInst "sum" ⟨1, 1⟩ demoStore).2.1
     (.user (.mk "sum" [] none)) rfl rfl,
   (instance_get_resolution demoInst "nope" ⟨1, 1⟩ demoStore).2.2.1 rfl rfl⟩

/-- C4: the bound method produced by a method hit captures a freshly
allocated cell holding a copy of the instance: the fresh address is not the
address of the original cell, the original cell is unchanged by the access,
field updates through the fresh cell are invisible through the original
address, and a second access for the same method name binds yet another,
distinct fresh cell. -/
theorem bound_method_receiver_is_fresh_copy
    (st : Store) (addr : Nat) (inst : Instance) (name : String) (cursor : Cursor) (m : Method)
    (haddr : st.lookup addr = some inst)
    (hfield : lookupAssoc inst.fields name = none)
    (hm : inst.obj.find_method name = some m) :
    (st.getProperty addr name cursor =
      (.ok (.Callable (CallableRef.ofMethod (m.bind_method (.ObjInstance st.insts.length)))),
       ⟨st.insts ++ [inst]⟩)) ∧
    st.insts.length ≠ addr ∧
    (Store.lookup ⟨st.insts ++ [inst]⟩ addr = some inst) ∧
    (Store.lookup ⟨st.insts ++ [inst]⟩ st.insts.length = some inst) ∧
    (∀ (f : String) (v : Value),
      (Store.setField ⟨st.insts ++ [inst]⟩ st.insts.length f v).lookup addr = some inst) ∧
    (Store.getProperty ⟨st.insts ++ [inst]⟩ addr name cursor =
      (.ok (.Callable (CallableRef.ofMethod
          (m.bind_method (.ObjInstance (st.insts.length + 1))))),
       ⟨(st.insts ++ [inst]) ++ [inst]⟩)) ∧
    st.insts.length + 1 ≠ st.insts.length := by
  have hlt : addr < st.insts.length := by
    by_contra hge
    rw [Store.lookup, List.getElem?_eq_none (Nat.le_of_not_lt hge)] at haddr
    cases haddr
  have hne : st.insts.length ≠ addr := by omega
  have horig : Store.lookup ⟨st.insts ++ [inst]⟩ addr = some inst := by
    show (st.insts ++ [inst])[addr]? = some inst
    rw [List.getElem?_append_left hlt]
    exact haddr
  refine ⟨?_, hne, horig, ?_, ?_, ?_, by omega⟩
  · simp only [Store.getProperty]
    rw [haddr]
    simp only [Instance.get, hfield, hm, Store.alloc]
  · show (st.insts ++ [inst])[st.insts.length]? = some inst
    exact List.getElem?_concat_length st.insts inst
  · intro f v
    have hfreshcell : (st.insts ++ [inst])[st.insts.length]? = some inst :=
      List.getElem?_concat_length st.insts inst
    show ((Store.setField ⟨st.insts ++ [inst]⟩ st.insts.length f v).insts)[addr]? = some inst
    simp only [Store.setField, hfreshcell]
    rw [List.getElem?_set_ne hne]
    exact horig
  · simp only [Store.getProperty]
    rw [horig]
    simp only [Instance.get, hfield, hm, Store.alloc, List.length_append, List.length_cons,
      List.length_nil]

/-- Witness for C4 on the `Point` fixture at address 0. -/
theorem bound_method_receiver_is_fresh_copy_witness :
    (demoStore.getProperty 0 "sum" ⟨1, 1⟩ =
      (.ok (.Callable (CallableRef.ofMethod ((Method.user (.mk "sum" [] none)).bind_method
          (.ObjInstance demoStore.insts.length)))),
       ⟨demoStore.insts ++ [demoInst]⟩)) ∧
    ((Store.setField ⟨demoStore.insts ++ [demoInst]⟩ demoStore.insts.length "x"
        .Null).lookup 0 = some demoInst) :=
  ⟨(bound_method_receiver_is_fresh_copy demoStore 0 demoInst "sum" ⟨1, 1⟩
      (.user (.mk "sum" [] none)) rfl rfl rfl).1,
   (bound_method_receiver_is_fresh_copy demoStore 0 demoInst "sum" ⟨1, 1⟩
      (.user (.mk "sum" [] none)) rfl rfl rfl).2.2.2.2.1 "x" .Null⟩

/-- C5: calling an Object allocates a fresh Instance of that Object (an
address not live in the incoming store, holding `Instance::new` of the
Object); with an `init` method the method is bound to that instance and
invoked with the arguments, its value is discarded and the instance is
still returned, while a runtime event from the invocation propagates and
no instance is returned; without `init` the instance is returned directly;
and `Object::arity` is the arity of `init` when present and 0 otherwise. -/
theorem object_call_constructs_fresh_instance
    (callFn : Method → List Value → Store → Except RuntimeEvent Value × Store)
    (o : Object) (args : List Value) (st : Store) :
    (o.find_method "init" = none →
      Object.call callFn o args st =
        (.ok (.ObjInstance st.insts.length), ⟨st.insts ++ [Instance.new o]⟩)) ∧
    (∀ init v st2, o.find_method "init" = some init →
      callFn (init.bind_method (.ObjInstance st.insts.length)) args
          ⟨st.insts ++ [Instance.new o]⟩ = (.ok v, st2) →
      Object.call callFn o args st = (.ok (.ObjInstance st.insts.length), st2)) ∧
    (∀ init e st2, o.find_method "init" = some init →
      callFn (init.bind_method (.ObjInstance st.insts.length)) args
          ⟨st.insts ++ [Instance.new o]⟩ = (.error e, st2) →
      Object.call callFn o args st = (.error e, st2)) ∧
    (st.lookup st.insts.length = none) ∧
    (Store.lookup ⟨st.insts ++ [Instance.new o]⟩ st.insts.length = some (Instance.new o)) ∧
    (∀ m, o.find_method "init" = some m → o.arity = m.arity) ∧
    (o.find_method "init" = none → o.arity = 0) := by
  refine ⟨?_, ?_, ?_, ?_, ?_, ?_, ?_⟩
  · intro h
    simp only [Object.call, Store.alloc, h]
  · intro init v st2 h hc
    simp only [Object.call, Store.alloc, h]
    rw [hc]
  · intro init e st2 h hc
    simp only [Object.call, Store.alloc, h]
    rw [hc]
  · exact List.getElem?_eq_none (Nat.le_refl _)
  · exact List.getElem?_concat_length st.insts (Instance.new o)
  · intro m h
    simp only [Object.arity, h]
  · intro h
    simp only [Object.arity, h]

/-- Witness for C5: calling the `Point` fixture (which has a two-parameter
`init`) on the empty store with the do-nothing `demoCallFn`. -/
theorem object_call_constructs_fresh_instance_witness :
    Object.call demoCallFn demoObj [] ⟨[]⟩ =
      (.ok (.ObjInstance 0), ⟨[Instance.new demoObj]⟩) ∧
    demoObj.arity = 2 :=
  ⟨(object_call_constructs_fresh_instance demoCallFn demoObj [] ⟨[]⟩).2.1
      (.user (.mk "init" ["x", "y"] none)) .Null ⟨[Instance.new demoObj]⟩ rfl rfl,
   (object_call_constructs_fresh_instance demoCallFn demoObj [] ⟨[]⟩).2.2.2.2.2.1
      (.user (.mk "init" ["x", "y"] none)) rfl⟩

/-- C8: the Tui layout state.  `clear` empties the widget and layout
buffers and resets the id counter to 1; `split_row` / `split_col` with n
constraints return the n consecutive ids starting at the counter and
advance it by exactly n (recording a layout command that starts writing at
the old counter); the API preserves the invariant that every command
starts at id 1 or later; under that invariant the rect table `render`
resolves always has the root frame area at id 0; and `render` is the
resolved table plus the widgets in insertion order. -/
theorem tui_layout_state
    {W : Type} (splitFn : TuiDirection → List Nat → TuiRect → List TuiRect)
    (st : TuiState W) (parent : Nat) (cs : List Nat) (root : TuiRect) :
    (tuiClear st = ⟨[], [], 1, []⟩) ∧
    (tuiSplitRow st parent cs =
      (List.range' st.nextId cs.length,
       ⟨st.widgets, st.layoutCmds ++ [⟨parent, cs, .horizontal, st.nextId⟩],
        st.nextId + cs.length, st.rects⟩)) ∧
    (tuiSplitCol st parent cs =
      (List.range' st.nextId cs.length,
       ⟨st.widgets, st.layoutCmds ++ [⟨parent, cs, .vertical, st.nextId⟩],
        st.nextId + cs.length, st.rects⟩)) ∧
    (∀ i, i < cs.length → (tuiSplitRow st parent cs).1[i]? = some (st.nextId + i)) ∧
    ((tuiSplitRow st parent cs).1.length = cs.length) ∧
    (tuiStateWf st = true →
      tuiStateWf (tuiSplitRow st parent cs).2 = true ∧
      tuiStateWf (tuiSplitCol st parent cs).2 = true ∧
      tuiStateWf (tuiClear st) = true) ∧
    (tuiStateWf st = true →
      (computeRects splitFn st.layoutCmds st.nextId root)[0]? = some root) ∧
    (tuiRender splitFn st root =
      (computeRects splitFn st.layoutCmds st.nextId root, st.widgets)) := by
  refine ⟨rfl, rfl, rfl, ?_, ?_, ?_, ?_, rfl⟩
  · intro i hi
    show (List.range' st.nextId cs.length)[i]? = some (st.nextId + i)
    rw [List.getElem?_range' _ _ hi, Nat.one_mul]
  · show (List.range' st.nextId cs.length).length = cs.length
    simp
  · intro h
    simp only [tuiStateWf, Bool.and_eq_true, decide_eq_true_eq, List.all_eq_true] at h
    obtain ⟨h1, h2⟩ := h
    refine ⟨?_, ?_, rfl⟩ <;>
    · simp only [tuiSplitRow, tuiSplitCol, tuiSplit, tuiStateWf, Bool.and_eq_true,
        decide_eq_true_eq, List.all_eq_true, List.mem_append, List.mem_singleton]
      refine ⟨by omega, ?_⟩
      intro c hc
      cases hc with
      | inl hmem => exact h2 c hmem
      | inr heq => subst heq; simpa using h1
  · intro h
    simp only [tuiStateWf, Bool.and_eq_true, decide_eq_true_eq, List.all_eq_true] at h
    obtain ⟨h1, h2⟩ := h
    simp only [computeRects]
    rw [foldCmds_getElem_zero splitFn st.layoutCmds _
      (fun c hc => by simpa using h2 c hc)]
    have hlen : 0 < (List.replicate st.nextId (⟨0, 0, 0, 0⟩ : TuiRect)).length := by
      simpa using h1
    exact List.getElem?_set_self hlen

/-- Witness for C8: the state reached by one `split_row` on a fresh frame
satisfies the invariant, resolves id 0 to the root area, and a further
`split_row` with two constraints returns the next two ids 3 and 4. -/
theorem tui_layout_state_witness :
    tuiStateWf demoTuiState = true ∧
    (computeRects demoSplitFn demoTuiState.layoutCmds demoTuiState.nextId demoRoot)[0]? =
      some demoRoot ∧
    (tuiSplitRow demoTuiState 1 [50, 50]).1 = [3, 4] :=
  ⟨by decide,
   (tui_layout_state demoSplitFn demoTuiState 1 [50, 50] demoRoot).2.2.2.2.2.2.1 (by decide),
   by decide⟩

/-- C10 counterexample: tokenize does not return normally on every input.
On the bare inputs "a", "=" and "true" the lexer indexes `src` out of
bounds — `peek` reads `src[curr+1]` with `curr+1 = len`, `consume` does the
same, and the `next` after a boolean literal steps past the end — which in
Rust is a panic. -/
theorem tokenize_panics_on_some_inputs :
    Lexer.tokenize "a" = .error .indexOutOfBounds ∧
    Lexer.tokenize "=" = .error .indexOutOfBounds ∧
    Lexer.tokenize "true" = .error .indexOutOfBounds :=
  ⟨rfl, rfl, rfl⟩

/-- C10 (amended): tokenize can panic (see the counterexample), but
whenever it returns normally the token list is non-empty and its last
element is `Token::EOF`. -/
theorem tokenize_ok_ends_with_eof (source : String) (ts : List Token)
    (h : Lexer.tokenize source = .ok ts) :
    ts ≠ [] ∧ ts.getLast? = some Token.EOF := by
  obtain ⟨pre, hpre⟩ := tokenizeLoop_ok_ends_eof source.toList _ 0 [] ts h
  subst hpre
  exact ⟨by simp, List.getLast?_concat pre⟩

/-- Witness for C10 on the empty source, where tokenize returns exactly
the EOF token (matching the lexer's own `empty_input` unit test). -/
theorem tokenize_ok_ends_with_eof_witness :
    ([Token.EOF] : List Token) ≠ [] ∧
    ([Token.EOF] : List Token).getLast? = some Token.EOF :=
  tokenize_ok_ends_with_eof "" [Token.EOF] rfl

end Queitite
